import Mathlib

/-!
# Verification of the local-argocd-renderer source-type detection and
# manifest deduplication pipeline

This file embeds, in Lean 4, the decision logic of the
`local-argocd-renderer` repository and proves properties about it:

* source-type detection (`GetAppSourceType`, `detectSourceTypeFromDirectory`,
  `isHelmChart`, `isKustomizeApp` — the lightweight detector of the
  `internal` package);
* the multi-source dispatch loop of `TemplateFromApplication`;
* the manifest-parsing stage of `TemplateFromApplication` (malformed
  documents become warnings);
* the deduplication engine (`controller.DeduplicateTargetObjects`, an
  external argo-cd library call: its body is not part of this repository,
  so it is modelled from the specification, §4.3);
* the Helm argument assembly (`addValueFiles`, `addSkipOptions`,
  `removeArg`);
* the Kustomize overlay lifecycle (`kustomizeRenderer.Execute`,
  `createKustomizationOverlay`) as a transition on an abstract
  filesystem-effect state.

Filesystem interaction is modelled by an oracle `stat : String → StatResult`:
Go's `os.Stat` either succeeds (`found`) or returns an error, which we split
into `absent` (file does not exist) and `ioError` (e.g. unreadable path),
because some claims distinguish the two.  The Go code under scrutiny only
ever tests `err == nil` / `err != nil`, which corresponds to `found` vs the
other two constructors.
-/

/-- Outcome of an `os.Stat` call on a path: the file exists (`err == nil`),
it does not exist, or the call failed with an I/O error (e.g. an unreadable
parent directory).  The Go code only branches on `err == nil`. -/
inductive StatResult where
  | found
  | absent
  | ioError
deriving DecidableEq

/-- `err == nil` for a stat oracle at a path. -/
def statOk (stat : String → StatResult) (p : String) : Bool :=
  stat p == StatResult.found

/-- Models Go's `filepath.Join` for the clean relative components this
program joins (marker-file names, value-file names, sub-paths).  Go's
`Join("", b) = b` and `Join(a, "") = a` behaviour is kept. -/
def filepathJoin (a b : String) : String :=
  if a = "" then b else if b = "" then a else a ++ "/" ++ b

/-- `ApplicationSourceType` from `types.go`: Helm, Kustomize or Directory. -/
inductive ApplicationSourceType where
  | helm
  | kustomize
  | directory
deriving DecidableEq

/-- `ApplicationSourceHelm` from `types.go` (the fields the verified
functions read). -/
structure ApplicationSourceHelm where
  releaseName : String := ""
  valueFiles : List String := []
  values : String := ""
  ignoreMissingValueFiles : Bool := false
  skipCrds : Bool := false
deriving DecidableEq

/-- `ApplicationSourceKustomize` from `types.go`.  `namePfx`/`ns` stand for
the source's `NamePrefix`/`Namespace` fields; maps are modelled as
association lists and the image/replica/patch entries by the data the
verified functions inspect (only emptiness/counts matter here). -/
structure ApplicationSourceKustomize where
  images : List String := []
  commonLabels : List (String × String) := []
  commonAnnotations : List (String × String) := []
  namePfx : String := ""
  nameSuffix : String := ""
  ns : String := ""
  replicas : List (String × String) := []
  patches : List String := []
  components : List String := []
  forceCommonLabels : Bool := false
  forceCommonAnnotations : Bool := false
deriving DecidableEq

/-- `ApplicationSourceDirectory` from `types.go`. -/
structure ApplicationSourceDirectory where
  recurse : Bool := false
  includeGlob : String := ""
  excludeGlob : String := ""
deriving DecidableEq

/-- `ApplicationSource` from `types.go`: the three kind-specific option
bundles are optional; `none` models a nil pointer. -/
structure ApplicationSource where
  repoURL : String := ""
  path : String := ""
  helm : Option ApplicationSourceHelm := none
  kustomize : Option ApplicationSourceKustomize := none
  directory : Option ApplicationSourceDirectory := none
deriving DecidableEq

/-- `isHelmChart` from `src/unnamed/part_002`: the directory contains
`Chart.yaml` or `Chart.yml` (a stat error of any kind counts as "not
present", exactly as the Go code's `err == nil` test does). -/
def isHelmChart (stat : String → StatResult) (path : String) : Bool :=
  statOk stat (filepathJoin path "Chart.yaml") ||
  statOk stat (filepathJoin path "Chart.yml")

/-- `isKustomizeApp` from `src/unnamed/part_002`: the directory contains
`kustomization.yaml`, `kustomization.yml` or `Kustomization`. -/
def isKustomizeApp (stat : String → StatResult) (path : String) : Bool :=
  ["kustomization.yaml", "kustomization.yml", "Kustomization"].any
    (fun file => statOk stat (filepathJoin path file))

/-- `detectSourceTypeFromDirectory` from `src/unnamed/part_002`.  The Go
function returns `(ApplicationSourceType, error)`; every return statement
carries a nil error, which the embedding keeps as `Except.ok` so that the
error channel of the Go signature stays visible. -/
def detectSourceTypeFromDirectory (stat : String → StatResult) (path : String) :
    Except String ApplicationSourceType :=
  if isHelmChart stat path then Except.ok ApplicationSourceType.helm
  else if isKustomizeApp stat path then Except.ok ApplicationSourceType.kustomize
  else Except.ok ApplicationSourceType.directory

/-- `GetAppSourceType` from `src/unnamed/part_002` (the `internal` package's
lightweight detector).  The `ctx` and `appName` parameters of the Go
function are unused by its body and are omitted. -/
def GetAppSourceType (stat : String → StatResult) (source : ApplicationSource)
    (appPath repoPath : String) : Except String ApplicationSourceType :=
  if source.helm.isSome then Except.ok ApplicationSourceType.helm
  else if source.kustomize.isSome then Except.ok ApplicationSourceType.kustomize
  else if source.directory.isSome then Except.ok ApplicationSourceType.directory
  else
    let searchPath := if appPath = "" ∨ appPath = repoPath then repoPath
      else filepathJoin repoPath appPath
    detectSourceTypeFromDirectory stat searchPath

/-- Spec-side reference detector, written from the words of spec §4.1 for
the refinement claim C3: explicit bundle first (Helm, then Kustomize, then
Directory), otherwise inspect `repoRoot/appPath` (or `repoRoot` alone when
`appPath` is empty or equals `repoRoot`): chart descriptor → Helm, else
kustomization descriptor → Kustomize, else Directory. -/
def detectTypeSpec (stat : String → StatResult) (source : ApplicationSource)
    (appPath repoRoot : String) : ApplicationSourceType :=
  if source.helm.isSome then ApplicationSourceType.helm
  else if source.kustomize.isSome then ApplicationSourceType.kustomize
  else if source.directory.isSome then ApplicationSourceType.directory
  else
    let resolvedPath := if appPath = "" ∨ appPath = repoRoot then repoRoot
      else filepathJoin repoRoot appPath
    if statOk stat (filepathJoin resolvedPath "Chart.yaml") ∨
       statOk stat (filepathJoin resolvedPath "Chart.yml") then
      ApplicationSourceType.helm
    else if statOk stat (filepathJoin resolvedPath "kustomization.yaml") ∨
            statOk stat (filepathJoin resolvedPath "kustomization.yml") ∨
            statOk stat (filepathJoin resolvedPath "Kustomization") then
      ApplicationSourceType.kustomize
    else
      ApplicationSourceType.directory

theorem isKustomizeApp_eq (stat : String → StatResult) (path : String) :
    isKustomizeApp stat path =
      (statOk stat (filepathJoin path "kustomization.yaml") ||
       statOk stat (filepathJoin path "kustomization.yml") ||
       statOk stat (filepathJoin path "Kustomization")) := by
  simp [isKustomizeApp, List.any, Bool.or_assoc]

/-- Shared refinement fact: the code's detector always succeeds and agrees
with the spec-side reference detector. -/
theorem getAppSourceType_refines_spec (stat : String → StatResult)
    (source : ApplicationSource) (appPath repoPath : String) :
    GetAppSourceType stat source appPath repoPath =
      Except.ok (detectTypeSpec stat source appPath repoPath) := by
  unfold GetAppSourceType detectTypeSpec detectSourceTypeFromDirectory
  by_cases hh : source.helm.isSome
  · simp [hh]
  · by_cases hk : source.kustomize.isSome
    · simp [hh, hk]
    · by_cases hd : source.directory.isSome
      · simp [hh, hk, hd]
      · simp only [hh, hk, hd, Bool.false_eq_true, if_false]
        rw [isHelmChart, isKustomizeApp_eq]
        simp only [Bool.or_eq_true, or_assoc]
        split_ifs <;> rfl

/-- C3: For every Source, type detection resolves in strict first-match
order: an explicit kind-option bundle (checked Helm, then Kustomize, then
Directory) determines the type regardless of filesystem contents; only when
no bundle is set is the directory at `repoRoot/appPath` (or `repoRoot`
alone when `appPath` is empty or equals `repoRoot`) inspected, where a
chart descriptor (`Chart.yaml` or `Chart.yml`) yields Helm, else a
kustomization descriptor yields Kustomize, else the type is Directory; in
particular a directory containing both markers with no explicit kind
yields Helm.  Stated as a refinement: the code's `GetAppSourceType` always
succeeds and returns exactly what the spec-side reference `detectTypeSpec`
(written from the claim's resolution order, Helm marker before Kustomize
marker, Directory fallback) computes. -/
theorem C3_detect_first_match (stat : String → StatResult)
    (source : ApplicationSource) (appPath repoPath : String) :
    GetAppSourceType stat source appPath repoPath =
      Except.ok (detectTypeSpec stat source appPath repoPath) :=
  getAppSourceType_refines_spec stat source appPath repoPath

/-- C6 counterexample: a completely unreadable filesystem (every stat call
fails with an I/O error) does not surface any error from detection — a
Source with no explicit bundle still resolves to `Directory`, so the
claim's "detection fails only when the filesystem path is unreadable, in
which case the I/O error is surfaced to the caller" is false of the code:
no error is ever surfaced. -/
theorem C6_counterexample_unreadable_path_no_error :
    GetAppSourceType (fun _ => StatResult.ioError) {} "app" "repo" =
      Except.ok ApplicationSourceType.directory := by
  rfl

/-- C6 (amended): detection never fails at all: for every Source and every
stat behaviour it returns a source type (stat errors — including I/O errors
on unreadable paths — are treated as the marker file being absent, and no
error is surfaced to the caller); in particular, for every Source without
an explicit bundle whose resolved directory shows no marker file, the
result is Directory. -/
theorem C6_amended_detection_total (stat : String → StatResult)
    (source : ApplicationSource) (appPath repoPath : String) :
    (∃ t, GetAppSourceType stat source appPath repoPath = Except.ok t) ∧
    (source.helm = none → source.kustomize = none → source.directory = none →
      isHelmChart stat (if appPath = "" ∨ appPath = repoPath then repoPath
        else filepathJoin repoPath appPath) = false →
      isKustomizeApp stat (if appPath = "" ∨ appPath = repoPath then repoPath
        else filepathJoin repoPath appPath) = false →
      GetAppSourceType stat source appPath repoPath =
        Except.ok ApplicationSourceType.directory) := by
  constructor
  · exact ⟨detectTypeSpec stat source appPath repoPath,
      getAppSourceType_refines_spec stat source appPath repoPath⟩
  · intro hh hk hd hchart hkust
    unfold GetAppSourceType detectSourceTypeFromDirectory
    simp [hh, hk, hd, hchart, hkust]

/-!
## Deduplication Engine

`TemplateFromApplication` (src/unnamed/part_003) hands the parsed objects to
`controller.DeduplicateTargetObjects`, a function of the external argo-cd
library whose body is not part of this repository.  Its behaviour is
modelled from the specification, §4.3: namespace defaulting through an
injected namespace-scope oracle, then a first-wins walk over the
(group, kind, namespace, name) identity keys that drops later duplicates
and emits one warning per dropped duplicate.
-/

/-- A manifest parsed into structured form.  The identity key is the
(group, kind, namespace, name) quadruple; `content` stands for the rest of
the document (it plays no role in deduplication: duplicates are detected by
key alone). -/
structure ResourceObject where
  group : String
  kind : String
  ns : String
  name : String
  content : String
deriving DecidableEq

/-- The (group, kind, namespace, name) identity key of a `ResourceObject`. -/
def resKey (o : ResourceObject) : String × String × String × String :=
  (o.group, o.kind, o.ns, o.name)

/-- `resourceInfoProviderStub.IsNamespaced` from `src/unnamed/part_003`
(lines 314–316): the injected namespace-scope oracle of this program.  Its
body is `return true, nil` — it reports every group/kind as
namespace-scoped (its own comment claims the opposite, "treats all
resources as cluster-scoped (returns false for IsNamespaced)"). -/
def resourceInfoProviderStubIsNamespaced (_group _kind : String) : Bool :=
  true

/-- Modelled from the spec: step 1 of the Deduplication Engine (§4.3),
"For every ResourceObject lacking an explicit namespace, and whose kind is
namespace-scoped (determined via an injected namespace-scope oracle …),
default its namespace to the Application's destination namespace.
Cluster-scoped kinds are left without a namespace regardless of the
Application's destination." -/
def defaultNamespace (isNamespaced : String → String → Bool) (dest : String)
    (o : ResourceObject) : ResourceObject :=
  if o.ns = "" ∧ isNamespaced o.group o.kind then
    { o with ns := dest }
  else
    o

/-- Modelled from the spec: the warning text for a dropped duplicate,
"one warning message identifying the kind/name/namespace and the fact that
a duplicate was discarded" (§4.3 step 3). -/
def dupWarning (o : ResourceObject) : String :=
  "duplicate resource " ++ o.kind ++ "/" ++ o.name ++ " in namespace " ++
    o.ns ++ " discarded"

/-- Modelled from the spec: the first-wins walk of §4.3 steps 2–3, with the
set of already-seen identity keys made explicit.  The first occurrence of a
key is kept, every later occurrence is dropped and contributes one warning,
in encounter order. -/
def dedupeWalk (seen : List (String × String × String × String)) :
    List ResourceObject → List ResourceObject × List String
  | [] => ([], [])
  | o :: rest =>
    if resKey o ∈ seen then
      let r := dedupeWalk seen rest
      (r.1, dupWarning o :: r.2)
    else
      let r := dedupeWalk (resKey o :: seen) rest
      (o :: r.1, r.2)

/-- Modelled from the spec: `controller.DeduplicateTargetObjects` (the
external argo-cd library call at src/unnamed/part_003 line 133), per spec
§4.3: default namespaces through the injected oracle, then walk the
objects in original order keeping the first occurrence of each identity
key.  (The Go function also returns an error value; the spec gives it no
failing behaviour of its own, so the embedding is total.) -/
def DeduplicateTargetObjects (isNamespaced : String → String → Bool)
    (dest : String) (objs : List ResourceObject) :
    List ResourceObject × List String :=
  dedupeWalk [] (objs.map (defaultNamespace isNamespaced dest))

/-- Reference function for C1: keep the first occurrence of each identity
key, preserving order. -/
def keepFirstByKey : List ResourceObject → List ResourceObject
  | [] => []
  | o :: rest =>
    o :: keepFirstByKey (rest.filter (fun p => decide (resKey p ≠ resKey o)))
termination_by l => l.length
decreasing_by
  simp only [List.length_cons]
  exact Nat.lt_succ_of_le (List.length_filter_le _ _)

theorem dedupeWalk_length (l : List ResourceObject) :
    ∀ seen, (dedupeWalk seen l).1.length + (dedupeWalk seen l).2.length =
      l.length := by
  induction l with
  | nil => intro seen; simp [dedupeWalk]
  | cons o rest ih =>
    intro seen
    by_cases h : resKey o ∈ seen
    · simp only [dedupeWalk, if_pos h, List.length_cons]
      have := ih seen
      omega
    · simp only [dedupeWalk, if_neg h, List.length_cons]
      have := ih (resKey o :: seen)
      omega

theorem dedupeWalk_fst (l : List ResourceObject) :
    ∀ seen, (dedupeWalk seen l).1 =
      keepFirstByKey (l.filter (fun o => decide (resKey o ∉ seen))) := by
  induction l with
  | nil => intro seen; simp [dedupeWalk, keepFirstByKey]
  | cons o rest ih =>
    intro seen
    by_cases h : resKey o ∈ seen
    · have hd : (decide (resKey o ∉ seen)) = false := by simp [h]
      simp only [dedupeWalk, if_pos h, List.filter_cons, hd,
        Bool.false_eq_true, if_false]
      exact ih seen
    · have hd : (decide (resKey o ∉ seen)) = true := by simp [h]
      simp only [dedupeWalk, if_neg h, List.filter_cons, hd, if_true]
      rw [ih (resKey o :: seen)]
      simp only [keepFirstByKey]
      rw [List.filter_filter]
      congr 1
      congr 1
      apply List.filter_congr
      intro p _
      simp [List.mem_cons, not_or, Bool.decide_and, Bool.and_comm]

theorem keepFirstByKey_sublist (l : List ResourceObject) :
    (keepFirstByKey l).Sublist l := by
  induction l using keepFirstByKey.induct with
  | case1 => simp [keepFirstByKey]
  | case2 o rest ih =>
    rw [keepFirstByKey]
    exact (ih.trans (List.filter_sublist rest)).cons₂ o

theorem keepFirstByKey_keys_nodup (l : List ResourceObject) :
    ((keepFirstByKey l).map resKey).Nodup := by
  induction l using keepFirstByKey.induct with
  | case1 => simp [keepFirstByKey]
  | case2 o rest ih =>
    rw [keepFirstByKey]
    simp only [List.map_cons, List.nodup_cons]
    refine ⟨?_, ih⟩
    intro hmem
    obtain ⟨p, hp, hkey⟩ := List.mem_map.mp hmem
    have hpf : p ∈ rest.filter (fun p => decide (resKey p ≠ resKey o)) :=
      (keepFirstByKey_sublist _).subset hp
    have := List.of_mem_filter hpf
    simp only [decide_eq_true_eq] at this
    exact this hkey

theorem dedupeWalk_of_nodup (l : List ResourceObject) :
    ∀ seen, (l.map resKey).Nodup → (∀ o ∈ l, resKey o ∉ seen) →
      dedupeWalk seen l = (l, []) := by
  induction l with
  | nil => intro seen _ _; simp [dedupeWalk]
  | cons o rest ih =>
    intro seen hnodup hfresh
    have hnotin : resKey o ∉ seen := hfresh o (List.mem_cons_self o rest)
    simp only [List.map_cons, List.nodup_cons] at hnodup
    rw [dedupeWalk, if_neg hnotin,
      ih (resKey o :: seen) hnodup.2 ?_]
    intro p hp
    simp only [List.mem_cons, not_or]
    exact ⟨fun hk => hnodup.1 (hk ▸ List.mem_map_of_mem resKey hp),
      hfresh p (List.mem_cons_of_mem o hp)⟩

theorem defaultNamespace_idem (isNamespaced : String → String → Bool)
    (dest : String) (o : ResourceObject) :
    defaultNamespace isNamespaced dest (defaultNamespace isNamespaced dest o) =
      defaultNamespace isNamespaced dest o := by
  unfold defaultNamespace
  by_cases h : o.ns = "" ∧ isNamespaced o.group o.kind = true
  · rw [if_pos h]
    by_cases hd : dest = ""
    · simp [hd, h.2]
    · simp [hd]
  · rw [if_neg h, if_neg h]

/-- C1: For every input list of ResourceObjects, the Deduplication Engine
keeps the first occurrence of each (group, kind, namespace, name) identity
key as the canonical object (equality with the order-preserving
`keepFirstByKey` reference on the namespace-defaulted input), drops every
subsequent occurrence of the same key while emitting exactly one warning
per dropped duplicate (the kept-count plus the warning-count equals the
input size), preserves the relative input order of the kept objects
(sublist of the defaulted input), and the output size is at most the input
size. -/
theorem C1_dedupe_first_wins (isNamespaced : String → String → Bool)
    (dest : String) (objs : List ResourceObject) :
    (DeduplicateTargetObjects isNamespaced dest objs).1 =
      keepFirstByKey (objs.map (defaultNamespace isNamespaced dest)) ∧
    (DeduplicateTargetObjects isNamespaced dest objs).1.Sublist
      (objs.map (defaultNamespace isNamespaced dest)) ∧
    (DeduplicateTargetObjects isNamespaced dest objs).1.length +
      (DeduplicateTargetObjects isNamespaced dest objs).2.length =
        objs.length ∧
    (DeduplicateTargetObjects isNamespaced dest objs).1.length ≤
      objs.length := by
  have hfst : (DeduplicateTargetObjects isNamespaced dest objs).1 =
      keepFirstByKey (objs.map (defaultNamespace isNamespaced dest)) := by
    unfold DeduplicateTargetObjects
    rw [dedupeWalk_fst]
    congr 1
    simp [List.filter_true]
  have hlen : (DeduplicateTargetObjects isNamespaced dest objs).1.length +
      (DeduplicateTargetObjects isNamespaced dest objs).2.length =
        objs.length := by
    unfold DeduplicateTargetObjects
    rw [dedupeWalk_length]
    simp
  refine ⟨hfst, ?_, hlen, by omega⟩
  rw [hfst]
  exact keepFirstByKey_sublist _

/-- C2 (failing-input evaluation): a ClusterRole with no explicit
namespace, rendered with destination namespace "default", receives
namespace "default" from the deduplication step, because the injected
oracle `resourceInfoProviderStub.IsNamespaced` (src/unnamed/part_003)
returns true for every group/kind — contradicting its own comment, which
says it treats all resources as cluster-scoped — so the claim's
"a cluster-scoped object (for example a ClusterRole) never receives a
namespace" is violated by the code. -/
theorem C2_clusterrole_receives_namespace :
    (DeduplicateTargetObjects
        (fun g k => resourceInfoProviderStubIsNamespaced g k) "default"
        [ResourceObject.mk "rbac.authorization.k8s.io" "ClusterRole" ""
          "cluster-admin" ""]).1 =
      [ResourceObject.mk "rbac.authorization.k8s.io" "ClusterRole" "default"
        "cluster-admin" ""] := by
  rfl

/-- C8: the Deduplication Engine is idempotent: running it a second time on
the object list produced by a first run returns that same list unchanged
and emits zero additional warnings. -/
theorem C8_dedupe_idempotent (isNamespaced : String → String → Bool)
    (dest : String) (objs : List ResourceObject) :
    DeduplicateTargetObjects isNamespaced dest
        (DeduplicateTargetObjects isNamespaced dest objs).1 =
      ((DeduplicateTargetObjects isNamespaced dest objs).1, []) := by
  have hfst : (DeduplicateTargetObjects isNamespaced dest objs).1 =
      keepFirstByKey (objs.map (defaultNamespace isNamespaced dest)) := by
    unfold DeduplicateTargetObjects
    rw [dedupeWalk_fst]
    congr 1
    simp [List.filter_true]
  have hsub : (DeduplicateTargetObjects isNamespaced dest objs).1.Sublist
      (objs.map (defaultNamespace isNamespaced dest)) := by
    rw [hfst]; exact keepFirstByKey_sublist _
  have hmap : (DeduplicateTargetObjects isNamespaced dest objs).1.map
      (defaultNamespace isNamespaced dest) =
      (DeduplicateTargetObjects isNamespaced dest objs).1 := by
    have : ∀ x ∈ (DeduplicateTargetObjects isNamespaced dest objs).1,
        defaultNamespace isNamespaced dest x = x := by
      intro x hx
      obtain ⟨y, _, hy⟩ := List.mem_map.mp (hsub.subset hx)
      rw [← hy]
      exact defaultNamespace_idem isNamespaced dest y
    calc (DeduplicateTargetObjects isNamespaced dest objs).1.map
          (defaultNamespace isNamespaced dest)
        = (DeduplicateTargetObjects isNamespaced dest objs).1.map id := by
          exact List.map_congr_left this
      _ = (DeduplicateTargetObjects isNamespaced dest objs).1 :=
          List.map_id _
  have hnodup : ((DeduplicateTargetObjects isNamespaced dest objs).1.map
      resKey).Nodup := by
    rw [hfst]; exact keepFirstByKey_keys_nodup _
  have hdef : DeduplicateTargetObjects isNamespaced dest
      (DeduplicateTargetObjects isNamespaced dest objs).1 =
      dedupeWalk [] ((DeduplicateTargetObjects isNamespaced dest objs).1.map
        (defaultNamespace isNamespaced dest)) := rfl
  rw [hdef, hmap]
  exact dedupeWalk_of_nodup _ [] hnodup (by simp)

/-!
## Render dispatcher: manifest parsing and the per-source loop

`TemplateFromApplication` (src/unnamed/part_003) loops over the resolved
sources in declared order, collects each source's raw manifests, parses
them, and deduplicates.  `json.Unmarshal` and the per-source generation are
external calls, modelled by oracles.
-/

/-- The manifest-parsing stage of `TemplateFromApplication`
(src/unnamed/part_003 lines 120–129): each collected raw manifest is
unmarshalled; a manifest that fails to parse contributes one warning (Go's
"Failed to parse manifest as JSON: %v" text, modelled by the message
oracle `parseErrMsg`) and is skipped with `continue`; successfully parsed
objects are collected in input order.  `json.Unmarshal` is an external
library call, modelled by the oracle `parse`. -/
def parseManifests {μ : Type} (parse : μ → Option ResourceObject)
    (parseErrMsg : μ → String) : List μ → List ResourceObject × List String
  | [] => ([], [])
  | m :: rest =>
    let r := parseManifests parse parseErrMsg rest
    match parse m with
    | some o => (o :: r.1, r.2)
    | none => (r.1, parseErrMsg m :: r.2)

/-- The tail of `TemplateFromApplication` (src/unnamed/part_003 lines
120–147): parse every collected manifest (failures become warnings),
deduplicate the parsed objects against the destination namespace and the
injected oracle, and return the deduplicated objects together with the
parse warnings followed by the duplicate-condition messages.  This stage
has no failing exit (the parse loop uses `continue`, never `return err`),
so the embedding is a total function. -/
def templateResultStage {μ : Type} (parse : μ → Option ResourceObject)
    (parseErrMsg : μ → String) (isNamespaced : String → String → Bool)
    (dest : String) (manifests : List μ) :
    List ResourceObject × List String :=
  let pr := parseManifests parse parseErrMsg manifests
  let dr := DeduplicateTargetObjects isNamespaced dest pr.1
  (dr.1, pr.2 ++ dr.2)

theorem parseManifests_eq {μ : Type} (parse : μ → Option ResourceObject)
    (parseErrMsg : μ → String) (manifests : List μ) :
    parseManifests parse parseErrMsg manifests =
      (manifests.filterMap parse,
       (manifests.filter (fun m => (parse m).isNone)).map parseErrMsg) := by
  induction manifests with
  | nil => simp [parseManifests]
  | cons m rest ih =>
    cases hm : parse m with
    | some o =>
      simp [parseManifests, hm, List.filterMap_cons, List.filter_cons, ih]
    | none =>
      simp [parseManifests, hm, List.filterMap_cons, List.filter_cons, ih]

/-- C7: for every render, a collected manifest that fails to parse is
recorded as exactly one warning and excluded from further processing,
while the successfully parsed objects (in order) are still deduplicated
and returned together with the parse warnings followed by the dedup
warnings — the stage is a total function, so a malformed document among
otherwise valid manifests never fails the render. -/
theorem C7_malformed_manifest_never_fails {μ : Type}
    (parse : μ → Option ResourceObject) (parseErrMsg : μ → String)
    (isNamespaced : String → String → Bool) (dest : String)
    (manifests : List μ) :
    templateResultStage parse parseErrMsg isNamespaced dest manifests =
      ((DeduplicateTargetObjects isNamespaced dest
          (manifests.filterMap parse)).1,
       (manifests.filter (fun m => (parse m).isNone)).map parseErrMsg ++
         (DeduplicateTargetObjects isNamespaced dest
           (manifests.filterMap parse)).2) := by
  unfold templateResultStage
  rw [parseManifests_eq]

/-- One turn of the dispatch loop of `TemplateFromApplication`
(src/unnamed/part_003 lines 52–118), abstracted over two oracles:
`preStep` stands for the per-source preparation that can fail without a
position tag (`repository.GetAppSourceType` and, for Kustomize sources,
the temporary-overlay setup — their errors are wrapped but carry no source
index), and `gen` for the strategy invocation
(`repository.GenerateManifests`), whose error is tagged "for source %d"
with the 1-based position of the source, modelled as `some (i + 1)` in the
error value.  On success the source's manifests are appended to the
accumulated list; the first failure aborts the loop immediately. -/
def processSourcesAux {σ ε μ : Type} (preStep : σ → Except ε Unit)
    (gen : σ → Except ε (List μ)) :
    Nat → List σ → Except (Option Nat × ε) (List μ)
  | _, [] => Except.ok []
  | i, q :: rest =>
    match preStep q with
    | Except.error e => Except.error (none, e)
    | Except.ok _ =>
      match gen q with
      | Except.error e => Except.error (some (i + 1), e)
      | Except.ok ms =>
        match processSourcesAux preStep gen (i + 1) rest with
        | Except.error x => Except.error x
        | Except.ok more => Except.ok (ms ++ more)

/-- The dispatch loop of `TemplateFromApplication` over the ordered request
list built by `buildRequestFromApplication` (one request per declared
Source, in declaration order), starting at source index 0. -/
def processSources {σ ε μ : Type} (preStep : σ → Except ε Unit)
    (gen : σ → Except ε (List μ)) (sources : List σ) :
    Except (Option Nat × ε) (List μ) :=
  processSourcesAux preStep gen 0 sources

theorem processSourcesAux_ok {σ ε μ : Type} (preStep : σ → Except ε Unit)
    (gen : σ → Except ε (List μ)) (f : σ → List μ) (sources : List σ) :
    ∀ i, (∀ s ∈ sources, preStep s = Except.ok () ∧ gen s = Except.ok (f s)) →
      processSourcesAux preStep gen i sources =
        Except.ok (sources.map f).flatten := by
  induction sources with
  | nil => intro i _; simp [processSourcesAux]
  | cons q rest ih =>
    intro i h
    have hq := h q (List.mem_cons_self q rest)
    rw [processSourcesAux, hq.1, hq.2,
      ih (i + 1) (fun s hs => h s (List.mem_cons_of_mem q hs))]
    simp

theorem processSourcesAux_err {σ ε μ : Type} (preStep : σ → Except ε Unit)
    (gen : σ → Except ε (List μ)) (l₂ : List σ) (q : σ) (e : ε) :
    ∀ (l₁ : List σ) (i : Nat),
      (∀ s ∈ l₁, preStep s = Except.ok () ∧ ∃ ms, gen s = Except.ok ms) →
      preStep q = Except.ok () → gen q = Except.error e →
      processSourcesAux preStep gen i (l₁ ++ q :: l₂) =
        Except.error (some (i + l₁.length + 1), e) := by
  intro l₁
  induction l₁ with
  | nil =>
    intro i _ hpre hgen
    simp only [List.nil_append, List.length_nil, Nat.add_zero]
    rw [processSourcesAux, hpre, hgen]
  | cons p l ih =>
    intro i h hpre hgen
    have hp := h p (List.mem_cons_self p l)
    obtain ⟨ms, hms⟩ := hp.2
    simp only [List.cons_append]
    rw [processSourcesAux, hp.1, hms,
      ih (i + 1) (fun s hs => h s (List.mem_cons_of_mem p hs)) hpre hgen]
    simp only [List.length_cons]
    have : i + 1 + l.length + 1 = i + (l.length + 1) + 1 := by omega
    rw [this]

/-- C4: the dispatcher processes the ordered source list in declared
order: when every source's preparation and strategy invocation succeed,
the result is the concatenation, in declaration order, of each source's
manifests; and when the strategy invocation for a source fails while every
earlier source succeeded, the loop propagates that error tagged with the
failing source's 1-based position and aborts — the result is the tagged
error alone, independent of every later source, with no partial-success
aggregation. -/
theorem C4_sources_in_order_error_tagged {σ ε μ : Type}
    (preStep : σ → Except ε Unit) (gen : σ → Except ε (List μ))
    (sources : List σ) (f : σ → List μ) (l₁ l₂ : List σ) (q : σ) (e : ε) :
    ((∀ s ∈ sources, preStep s = Except.ok () ∧ gen s = Except.ok (f s)) →
      processSources preStep gen sources = Except.ok (sources.map f).flatten) ∧
    ((∀ s ∈ l₁, preStep s = Except.ok () ∧ ∃ ms, gen s = Except.ok ms) →
      preStep q = Except.ok () → gen q = Except.error e →
      processSources preStep gen (l₁ ++ q :: l₂) =
        Except.error (some (l₁.length + 1), e)) := by
  constructor
  · intro h
    exact processSourcesAux_ok preStep gen f sources 0 h
  · intro h hpre hgen
    have := processSourcesAux_err preStep gen l₂ q e l₁ 0 h hpre hgen
    simpa using this

/-- Witness for C4 at concrete inputs: a two-source list whose sources
both succeed concatenates in order, and a list whose second source's
strategy fails yields the error tagged with position 2. -/
theorem C4_sources_in_order_error_tagged_witness :
    processSources (fun _ : Nat => Except.ok ())
        (fun s : Nat => Except.ok (ε := String) [s, s + 10])
        [1, 2] = Except.ok [1, 11, 2, 12] ∧
    processSources (fun _ : Nat => Except.ok ())
        (fun s : Nat =>
          if s = 2 then Except.error "boom" else Except.ok [s])
        [1, 2, 3] = Except.error (some 2, "boom") := by
  constructor
  · have h := (C4_sources_in_order_error_tagged
      (fun _ : Nat => Except.ok ())
      (fun s : Nat => Except.ok (ε := String) [s, s + 10])
      [1, 2] (fun s => [s, s + 10]) [] [] 0 "x").1
    have := h (by intro s _; exact ⟨rfl, rfl⟩)
    simpa using this
  · have h := (C4_sources_in_order_error_tagged
      (fun _ : Nat => Except.ok ())
      (fun s : Nat =>
        if s = 2 then Except.error "boom" else Except.ok [s])
      [] (fun s => [s]) [1] [3] 2 "boom").2
    have := h (by intro s hs; simp at hs; subst hs; exact ⟨rfl, ⟨[1], rfl⟩⟩)
      rfl rfl
    simpa using this

/-!
## Helm argument assembly

`helmRenderer` (src/unnamed/part_002, first file) assembles the
`helm template` argument list.  The claims concern `addValueFiles` (missing
values files) and `addSkipOptions`/`removeArg` (the IncludeCrds override).
-/

/-- Go's `filepath.IsAbs` on a Unix path: the path begins with a slash. -/
def isAbsPath (p : String) : Bool :=
  match p.data with
  | [] => false
  | c :: _ => c == '/'

/-- `helmRenderer.resolveValueFilePath` from `src/unnamed/part_002` (lines
173–181): an absolute path is used as-is; otherwise the file is resolved
under `repoPath/sourcePath`, or under `repoPath` alone when the source
path is empty. -/
def resolveValueFilePath (sourcePath repoPath valueFile : String) : String :=
  if isAbsPath valueFile then valueFile
  else if sourcePath ≠ "" then
    filepathJoin (filepathJoin repoPath sourcePath) valueFile
  else
    filepathJoin repoPath valueFile

/-- `helmRenderer.addValueFiles` from `src/unnamed/part_002` (lines
102–114): walk the Source's referenced values files in order; when the
stat of the resolved path fails, skip the reference if
`IgnoreMissingValueFiles` is set, otherwise abort with the error
"error resolving helm value file <file>"; when the stat succeeds append
`--values <resolved>`. -/
def addValueFiles (stat : String → StatResult) (sourcePath repoPath : String)
    (ignoreMissingValueFiles : Bool) (args : List String) :
    List String → Except String (List String)
  | [] => Except.ok args
  | valueFile :: rest =>
    let resolvedPath := resolveValueFilePath sourcePath repoPath valueFile
    if statOk stat resolvedPath then
      addValueFiles stat sourcePath repoPath ignoreMissingValueFiles
        (args ++ ["--values", resolvedPath]) rest
    else if ignoreMissingValueFiles then
      addValueFiles stat sourcePath repoPath ignoreMissingValueFiles args rest
    else
      Except.error ("error resolving helm value file " ++ valueFile)

theorem addValueFiles_ignore_missing (stat : String → StatResult)
    (sourcePath repoPath : String) (files : List String) :
    ∀ args, addValueFiles stat sourcePath repoPath true args files =
      Except.ok (args ++
        ((files.filter (fun f =>
            statOk stat (resolveValueFilePath sourcePath repoPath f))).map
          (fun f =>
            ["--values", resolveValueFilePath sourcePath repoPath f])).flatten) := by
  induction files with
  | nil => intro args; simp [addValueFiles]
  | cons valueFile rest ih =>
    intro args
    cases h : statOk stat (resolveValueFilePath sourcePath repoPath valueFile) with
    | true =>
      rw [addValueFiles]
      simp only [h, if_true, List.filter_cons, List.map_cons, List.flatten_cons]
      rw [ih]
      simp [List.append_assoc]
    | false =>
      rw [addValueFiles]
      simp only [h, Bool.false_eq_true, if_false, if_true, List.filter_cons]
      rw [ih]

theorem addValueFiles_missing_fatal (stat : String → StatResult)
    (sourcePath repoPath : String) (l₂ : List String) (valueFile : String) :
    ∀ (l₁ : List String) (args : List String),
      (∀ p ∈ l₁, statOk stat (resolveValueFilePath sourcePath repoPath p) = true) →
      statOk stat (resolveValueFilePath sourcePath repoPath valueFile) = false →
      addValueFiles stat sourcePath repoPath false args (l₁ ++ valueFile :: l₂) =
        Except.error ("error resolving helm value file " ++ valueFile) := by
  intro l₁
  induction l₁ with
  | nil =>
    intro args _ hmiss
    rw [List.nil_append, addValueFiles]
    simp [hmiss]
  | cons p l ih =>
    intro args h hmiss
    have hp := h p (List.mem_cons_self p l)
    rw [List.cons_append, addValueFiles]
    simp only [hp, if_true]
    exact ih _ (fun x hx => h x (List.mem_cons_of_mem p hx)) hmiss

/-- C9: for every Helm Source, when `IgnoreMissingValueFiles` is set every
referenced values file whose stat fails is skipped silently (no `--values`
argument, no error) while the remaining (present) value files still
contribute `--values <resolved>` in order; and when the flag is not set,
the first referenced values file whose stat fails aborts the assembly with
a fatal error identifying that file. -/
theorem C9_missing_value_files (stat : String → StatResult)
    (sourcePath repoPath : String) (files : List String) (args : List String)
    (l₁ l₂ : List String) (valueFile : String) :
    (addValueFiles stat sourcePath repoPath true args files =
      Except.ok (args ++
        ((files.filter (fun f =>
            statOk stat (resolveValueFilePath sourcePath repoPath f))).map
          (fun f =>
            ["--values", resolveValueFilePath sourcePath repoPath f])).flatten)) ∧
    ((∀ p ∈ l₁, statOk stat (resolveValueFilePath sourcePath repoPath p) = true) →
      statOk stat (resolveValueFilePath sourcePath repoPath valueFile) = false →
      addValueFiles stat sourcePath repoPath false args (l₁ ++ valueFile :: l₂) =
        Except.error ("error resolving helm value file " ++ valueFile)) :=
  ⟨addValueFiles_ignore_missing stat sourcePath repoPath files args,
   fun h hmiss =>
     addValueFiles_missing_fatal stat sourcePath repoPath l₂ valueFile l₁ args
       h hmiss⟩

/-- Witness for C9 at concrete inputs: with the ignore flag set, a missing
values file among two present ones is skipped silently and the two present
files are appended in order; without the flag, the missing file aborts the
assembly with the error naming it.  The stat oracle reports exactly
`repo/app/a.yaml` and `repo/app/c.yaml` as present. -/
theorem C9_missing_value_files_witness :
    addValueFiles
        (fun p => if p = "repo/app/a.yaml" ∨ p = "repo/app/c.yaml"
          then StatResult.found else StatResult.absent)
        "app" "repo" true ["template", "rel", "app"]
        ["a.yaml", "b.yaml", "c.yaml"] =
      Except.ok ["template", "rel", "app", "--values", "repo/app/a.yaml",
        "--values", "repo/app/c.yaml"] ∧
    addValueFiles
        (fun p => if p = "repo/app/a.yaml" ∨ p = "repo/app/c.yaml"
          then StatResult.found else StatResult.absent)
        "app" "repo" false ["template", "rel", "app"]
        ["a.yaml", "b.yaml", "c.yaml"] =
      Except.error "error resolving helm value file b.yaml" := by
  constructor
  · have h := (C9_missing_value_files
      (fun p => if p = "repo/app/a.yaml" ∨ p = "repo/app/c.yaml"
        then StatResult.found else StatResult.absent)
      "app" "repo" ["a.yaml", "b.yaml", "c.yaml"] ["template", "rel", "app"]
      [] [] "x").1
    rw [h]
    congr 1
  · have h := (C9_missing_value_files
      (fun p => if p = "repo/app/a.yaml" ∨ p = "repo/app/c.yaml"
        then StatResult.found else StatResult.absent)
      "app" "repo" [] ["template", "rel", "app"]
      ["a.yaml"] ["c.yaml"] "b.yaml").2
    have ha : ∀ p ∈ (["a.yaml"] : List String),
        statOk (fun p => if p = "repo/app/a.yaml" ∨ p = "repo/app/c.yaml"
          then StatResult.found else StatResult.absent)
          (resolveValueFilePath "app" "repo" p) = true := by
      intro p hp
      simp only [List.mem_singleton] at hp
      subst hp
      decide
    have h2 := h ha (by decide)
    simpa using h2

/-- `HelmOptions` from `types.go`: the caller-supplied per-render Helm
overrides. -/
structure HelmOptions where
  skipCrds : Bool := false
  skipTests : Bool := false
  includeCrds : Bool := false
deriving DecidableEq

/-- `helmRenderer.removeArg` from `src/unnamed/part_002` (lines 183–190):
remove the first occurrence of `argToRemove`, leaving the rest of the list
unchanged. -/
def removeArg (args : List String) (argToRemove : String) : List String :=
  match args with
  | [] => []
  | a :: rest =>
    if a = argToRemove then rest else a :: removeArg rest argToRemove

/-- `helmRenderer.addSkipOptions` from `src/unnamed/part_002` (lines
158–171): append `--skip-crds` when the Source's Helm bundle or the
caller-supplied options ask for it, append `--skip-tests` when the caller
asks for it, and finally, when the caller sets `IncludeCrds`, remove
`--skip-crds` from the assembled list.  `opts` may be nil (`none`). -/
def addSkipOptions (args : List String) (sourceSkipCrds : Bool)
    (opts : Option HelmOptions) : List String :=
  let args1 :=
    if sourceSkipCrds ||
        (match opts with | some o => o.skipCrds | none => false) then
      args ++ ["--skip-crds"]
    else args
  let args2 :=
    if (match opts with | some o => o.skipTests | none => false) then
      args1 ++ ["--skip-tests"]
    else args1
  if (match opts with | some o => o.includeCrds | none => false) then
    removeArg args2 "--skip-crds"
  else args2

theorem removeArg_not_mem (x : String) :
    ∀ l : List String, x ∉ l → removeArg l x = l := by
  intro l
  induction l with
  | nil => intro _; rfl
  | cons a rest ih =>
    intro h
    rw [removeArg]
    rw [if_neg (by intro ha; exact h (ha ▸ List.mem_cons_self a rest))]
    rw [ih (fun hm => h (List.mem_cons_of_mem a hm))]

theorem removeArg_append (x : String) (r : List String) :
    ∀ l : List String, x ∉ l → removeArg (l ++ x :: r) x = l ++ r := by
  intro l
  induction l with
  | nil => simp [removeArg]
  | cons a rest ih =>
    intro h
    rw [List.cons_append, removeArg]
    rw [if_neg (by intro ha; exact h (ha ▸ List.mem_cons_self a rest))]
    rw [ih (fun hm => h (List.mem_cons_of_mem a hm))]
    rfl

/-- C10: when the caller-supplied `HelmOptions` set `IncludeCrds`, the
final argument list contains no `--skip-crds` flag, whatever the Source's
own `SkipCrds` field and the caller's `SkipCrds`/`SkipTests` fields say
(assuming, as `buildHelmArgs` guarantees, that the arguments assembled
before `addSkipOptions` do not already contain a literal `--skip-crds`) —
`IncludeCrds` overrides every skip-CRDs request for the invocation. -/
theorem C10_includecrds_overrides_skipcrds (args : List String)
    (sourceSkipCrds : Bool) (o : HelmOptions) (hinc : o.includeCrds = true)
    (hargs : "--skip-crds" ∉ args) :
    "--skip-crds" ∉ addSkipOptions args sourceSkipCrds (some o) := by
  unfold addSkipOptions
  simp only [hinc, if_true]
  by_cases h1 : (sourceSkipCrds || o.skipCrds) = true
  · simp only [h1, if_true]
    by_cases h2 : o.skipTests = true
    · simp only [h2, if_true]
      rw [List.append_assoc, List.singleton_append,
        removeArg_append _ _ _ hargs]
      intro hmem
      rcases List.mem_append.mp hmem with hl | hr
      · exact hargs hl
      · simp at hr
    · simp only [h2, Bool.false_eq_true, if_false]
      have : args ++ ["--skip-crds"] = args ++ "--skip-crds" :: [] := rfl
      rw [this, removeArg_append _ _ _ hargs, List.append_nil]
      exact hargs
  · simp only [h1, Bool.false_eq_true, if_false]
    by_cases h2 : o.skipTests = true
    · simp only [h2, if_true]
      have hnm : "--skip-crds" ∉ args ++ ["--skip-tests"] := by
        intro hmem
        rcases List.mem_append.mp hmem with hl | hr
        · exact hargs hl
        · simp at hr
      rw [removeArg_not_mem _ _ hnm]
      exact hnm
    · simp only [h2, Bool.false_eq_true, if_false]
      rw [removeArg_not_mem _ _ hargs]
      exact hargs

/-- Witness for C10 at a concrete input: with the Source requesting
SkipCrds, the caller requesting SkipCrds and SkipTests, and IncludeCrds
set, the assembled list carries no `--skip-crds`. -/
theorem C10_includecrds_overrides_skipcrds_witness :
    "--skip-crds" ∉ addSkipOptions ["template", "my-app", "."] true
      (some (HelmOptions.mk true true true)) :=
  C10_includecrds_overrides_skipcrds ["template", "my-app", "."] true
    (HelmOptions.mk true true true) rfl (by decide)

/-!
## Kustomize overlay lifecycle

`kustomizeRenderer.Execute` (src/internal/kustomize.go) synthesizes a
temporary overlay when the Source carries imperative Kustomize options.
Its filesystem effects are modelled as a transition on an abstract state:
whether the temporary overlay directory currently exists and whether
anything under the source repository was written.
-/

/-- `hasKustomizeOptions` from `src/internal/kustomize.go` (lines
138–150): at least one imperative Argo CD Kustomize option is set. -/
def hasKustomizeOptions (kustomize : ApplicationSourceKustomize) : Bool :=
  !kustomize.images.isEmpty || !kustomize.commonLabels.isEmpty ||
  !kustomize.commonAnnotations.isEmpty || kustomize.namePfx != "" ||
  kustomize.nameSuffix != "" || kustomize.ns != "" ||
  !kustomize.replicas.isEmpty || !kustomize.patches.isEmpty ||
  !kustomize.components.isEmpty || kustomize.forceCommonLabels ||
  kustomize.forceCommonAnnotations

/-- `kustomizeRenderer.needsOverlay` from `src/internal/kustomize.go`
(lines 103–105): the Source carries a Kustomize bundle (non-nil) with at
least one imperative option set. -/
def needsOverlay (kustomize : Option ApplicationSourceKustomize) : Bool :=
  match kustomize with
  | none => false
  | some k => hasKustomizeOptions k

/-- Abstract filesystem state for one `kustomizeRenderer.Execute` run:
whether the run's temporary overlay directory exists, and whether any path
under the source repository has been written. -/
structure KustomizeFs where
  tempDirExists : Bool
  repoWritten : Bool
deriving DecidableEq

/-- Which of the fallible steps of one run fail, in the order the code
performs them: `os.MkdirTemp`, `filepath.Abs`, `os.Symlink`,
`KustomizeReplica.GetIntCount`, `yaml.Marshal`, `os.WriteFile`, and the
external `kustomize build` process. -/
structure KustomizeRunEnv where
  mkdirTempFails : Bool := false
  absFails : Bool := false
  symlinkFails : Bool := false
  replicasInvalid : Bool := false
  marshalFails : Bool := false
  writeFileFails : Bool := false
  toolFails : Bool := false
deriving DecidableEq

/-- `kustomizeRenderer.createKustomizationOverlay` from
`src/internal/kustomize.go` (lines 152–266) as a transition on the
abstract filesystem.  `os.MkdirTemp("", "kustomize-overlay-")` creates the
temporary directory in the system temp location (outside the repository);
the symlink and `kustomization.yaml` are written inside that directory
only, so `repoWritten` is never set.  Each failing step after `MkdirTemp`
returns its error WITHOUT removing the directory — the function performs
no cleanup of its own. -/
def createKustomizationOverlay (env : KustomizeRunEnv) (s : KustomizeFs) :
    Except String Unit × KustomizeFs :=
  if env.mkdirTempFails then
    (Except.error "failed to create temp directory", s)
  else
    let s1 : KustomizeFs := { s with tempDirExists := true }
    if env.absFails then
      (Except.error "failed to get absolute path", s1)
    else if env.symlinkFails then
      (Except.error "failed to create symlink", s1)
    else if env.replicasInvalid then
      (Except.error "invalid replica count", s1)
    else if env.marshalFails then
      (Except.error "failed to marshal kustomization.yaml", s1)
    else if env.writeFileFails then
      (Except.error "failed to write kustomization.yaml", s1)
    else
      (Except.ok (), s1)

/-- `kustomizeRenderer.Execute` together with `prepareWorkDir` from
`src/internal/kustomize.go` (lines 59–101): without an overlay the
external command runs against the source directory and the filesystem is
untouched; with an overlay, an error from `createKustomizationOverlay` is
wrapped and returned as-is (`prepareWorkDir` returns a nil cleanup on that
path, so nothing is removed), while after successful construction the
deferred cleanup (`os.RemoveAll(workDir)`) removes the temporary directory
whether or not `kustomize build` fails. -/
def kustomizeExecute (env : KustomizeRunEnv)
    (kustomize : Option ApplicationSourceKustomize) (s : KustomizeFs) :
    Except String Unit × KustomizeFs :=
  if needsOverlay kustomize = false then
    ((if env.toolFails then Except.error "kustomize build failed"
      else Except.ok ()), s)
  else
    match createKustomizationOverlay env s with
    | (Except.error e, s1) =>
      (Except.error ("failed to create kustomization overlay: " ++ e), s1)
    | (Except.ok _, s1) =>
      ((if env.toolFails then Except.error "kustomize build failed"
        else Except.ok ()),
       { s1 with tempDirExists := false })

/-- C5 counterexample: a run that needs an overlay (the Source sets a name
prefix) and whose `os.Symlink` step fails returns the wrapped construction
error while the temporary overlay directory still exists — the directory
is NOT removed on this exit path, refuting "the temporary overlay
directory is removed by the time the strategy returns, on every exit path
(success, error during overlay construction, and error from the external
tool)". -/
theorem C5_counterexample_overlay_error_leaks_tempdir :
    kustomizeExecute
        (KustomizeRunEnv.mk false false true false false false false)
        (some (ApplicationSourceKustomize.mk [] [] [] "test-prefix-" "" ""
          [] [] [] false false))
        (KustomizeFs.mk false false) =
      (Except.error "failed to create kustomization overlay: failed to create symlink",
       KustomizeFs.mk true false) := by
  rfl

/-- C5 (amended): for every Kustomize strategy run, the source repository
is never written; when no overlay is needed the filesystem is untouched;
when an overlay is synthesized and its construction succeeds, the
temporary directory is removed by the time the strategy returns, both on
success and on external-tool failure; but when a construction step fails
after `os.MkdirTemp` succeeded (abs/symlink/replica/marshal/write error),
the temporary directory still exists when the strategy returns. -/
theorem C5_amended_overlay_cleanup (env : KustomizeRunEnv)
    (kustomize : Option ApplicationSourceKustomize) (s : KustomizeFs) :
    ((kustomizeExecute env kustomize s).2.repoWritten = s.repoWritten) ∧
    (needsOverlay kustomize = false →
      (kustomizeExecute env kustomize s).2 = s) ∧
    (needsOverlay kustomize = true → env.mkdirTempFails = false →
      env.absFails = false → env.symlinkFails = false →
      env.replicasInvalid = false → env.marshalFails = false →
      env.writeFileFails = false →
      (kustomizeExecute env kustomize s).2.tempDirExists = false) ∧
    (needsOverlay kustomize = true → env.mkdirTempFails = false →
      (env.absFails = true ∨ env.symlinkFails = true ∨
       env.replicasInvalid = true ∨ env.marshalFails = true ∨
       env.writeFileFails = true) →
      (kustomizeExecute env kustomize s).2.tempDirExists = true) := by
  obtain ⟨em, ea, es, er, ema, ew, et⟩ := env
  by_cases hno : needsOverlay kustomize = true
  · cases em <;> cases ea <;> cases es <;> cases er <;> cases ema <;>
      cases ew <;> cases et <;>
      simp [kustomizeExecute, createKustomizationOverlay, hno]
  · have hno2 : needsOverlay kustomize = false := by
      simpa using hno
    cases et <;>
      simp [kustomizeExecute, createKustomizationOverlay, hno2]

/-- Witness for C5 (amended) at concrete inputs: a run needing an overlay
whose construction succeeds and whose external tool fails still ends with
the temporary directory removed, and the same run with a failing
`os.WriteFile` ends with the directory leaked; the repository is never
written in either run. -/
theorem C5_amended_overlay_cleanup_witness :
    (kustomizeExecute
        (KustomizeRunEnv.mk false false false false false false true)
        (some (ApplicationSourceKustomize.mk [] [] [] "test-prefix-" "" ""
          [] [] [] false false))
        (KustomizeFs.mk false false)).2.tempDirExists = false ∧
    (kustomizeExecute
        (KustomizeRunEnv.mk false false false false false true false)
        (some (ApplicationSourceKustomize.mk [] [] [] "test-prefix-" "" ""
          [] [] [] false false))
        (KustomizeFs.mk false false)).2.tempDirExists = true ∧
    (kustomizeExecute
        (KustomizeRunEnv.mk false false false false false false true)
        (some (ApplicationSourceKustomize.mk [] [] [] "test-prefix-" "" ""
          [] [] [] false false))
        (KustomizeFs.mk false false)).2.repoWritten = false := by
  refine ⟨?_, ?_, ?_⟩
  · exact (C5_amended_overlay_cleanup
      (KustomizeRunEnv.mk false false false false false false true)
      (some (ApplicationSourceKustomize.mk [] [] [] "test-prefix-" "" ""
        [] [] [] false false))
      (KustomizeFs.mk false false)).2.2.1 (by decide) rfl rfl rfl rfl rfl rfl
  · exact (C5_amended_overlay_cleanup
      (KustomizeRunEnv.mk false false false false false true false)
      (some (ApplicationSourceKustomize.mk [] [] [] "test-prefix-" "" ""
        [] [] [] false false))
      (KustomizeFs.mk false false)).2.2.2 (by decide) rfl
      (Or.inr (Or.inr (Or.inr (Or.inr rfl))))
  · exact (C5_amended_overlay_cleanup
      (KustomizeRunEnv.mk false false false false false false true)
      (some (ApplicationSourceKustomize.mk [] [] [] "test-prefix-" "" ""
        [] [] [] false false))
      (KustomizeFs.mk false false)).1

/-- Witness for C6 (amended) at a concrete input: with no explicit bundle
and every stat reporting "does not exist", detection returns Directory
without an error. -/
theorem C6_amended_detection_total_witness :
    GetAppSourceType (fun _ => StatResult.absent) {} "sub" "repo" =
      Except.ok ApplicationSourceType.directory :=
  (C6_amended_detection_total (fun _ => StatResult.absent) {} "sub" "repo").2
    rfl rfl rfl (by decide) (by decide)
